import Mathlib

/-!
Shallow embedding of the OpVia-Assessment-Server student-dashboard backend
(Express + SQLite, TypeScript) and verification of the frozen claims about it.

Source files embedded:
* `src/middleware/auth.ts` — token extraction, JWT gate, token issuance;
* unnamed auth-route file — `POST /auth/login` against the hardcoded pair;
* `src/controllers/analytics.ts` — `getAnalytics`, `getStudents`,
  `createNewStudent`, `updateStudent`, `deleteStudent`;
* `src/routes/students.ts` — `validateGetStudents` query validation;
* `src/database/init.ts` — schema and the six-row sample seed.

Modelling conventions:
* The SQLite `students` table is a `List Student`; ids are `Nat`,
  `created_at` timestamps are `Nat` ordinals, grades are `ℚ`.
* JS strings that may be `undefined` are `Option String`; JS falsiness of
  `undefined` and `""` is `jsTruthy`.
* A route parameter fed through `Number(...)` is an `Option ℚ`
  (`none` = `NaN`).
* Fallible storage statements take an explicit outcome argument
  (`Except DbErr Nat`, the `Nat` being sqlite's `changes` count), which lets
  the injected-failure paths of each handler's `catch` block be exercised;
  the purely sequential instantiation supplies the actual row count.
* JWT signing/verification (an out-of-scope library) is modelled at the
  data level: a token records its payload, signing secret and expiry, and
  verification checks secret equality and non-expiry.
-/

/-- `Roles` enum from `src/types/enums` (file absent from the snapshot; the
three constructors are exactly those used by the sources:
`Roles.ADMIN`, `Roles.TEACHER`, `Roles.STUDENT`). -/
inductive Roles
  | ADMIN
  | TEACHER
  | STUDENT
deriving DecidableEq, Repr

/-- The identity payload attached to a request by `authenticateToken`
(`src/middleware/auth.ts`): `{ username, role, id }`. -/
structure Identity where
  username : String
  role : Roles
  id : Nat
deriving DecidableEq, Repr

/-- A row of the `students` table (`src/database/init.ts`):
`id INTEGER PRIMARY KEY AUTOINCREMENT, name TEXT, email TEXT UNIQUE,
subject TEXT, grade INTEGER CHECK 0..100, created_at DATETIME`.
`created_at` is modelled as a `Nat` ordinal (insertion timestamps are
ISO strings, totally ordered). -/
structure Student where
  id : Nat
  name : String
  email : String
  subject : String
  grade : ℚ
  created_at : Nat
deriving DecidableEq, Repr

/-- JS truthiness of a possibly-`undefined` string: `undefined` and `""`
are falsy. -/
def jsTruthy : Option String → Bool
  | none => false
  | some s => s != ""

/-- ASCII lowercase of one character — the behaviour of both SQL `LOWER()`
and JS `toLowerCase()` on the ASCII range. -/
def lowerChar (c : Char) : Char :=
  if 65 ≤ c.toNat ∧ c.toNat ≤ 90 then Char.ofNat (c.toNat + 32) else c

/-- ASCII lowercase of a string (`email.toLowerCase()` / `LOWER(email)`). -/
def lowerStr (s : String) : String := (s.toList.map lowerChar).asString

/-! ## Authentication gate — `src/middleware/auth.ts` -/

/-- JS `split(' ')` over the character list: a space ends the current
field and starts a new one; empty fields are kept (`"a  b"` gives
`["a", "", "b"]`, `"Bearer "` gives `["Bearer", ""]`, `""` gives
`[""]`). -/
def splitSpaceChars : List Char → List (List Char)
  | [] => [[]]
  | c :: rest =>
    match splitSpaceChars rest with
    | [] => if c = ' ' then [[], []] else [[c]]
    | g :: gs => if c = ' ' then [] :: g :: gs else (c :: g) :: gs

/-- JS `s.split(' ')`. -/
def jsSplitSpace (s : String) : List String :=
  (splitSpaceChars s.toList).map List.asString

/-- `authHeader && authHeader.split(' ')[1]` — the second `' '`-separated
field of the `Authorization` header, if the header is present and the field
exists. -/
def headerToken (authHeader : Option String) : Option String :=
  match authHeader with
  | none => none
  | some h => (jsSplitSpace h).get? 1

/-- The token-selection logic of `authenticateToken`: take the header's
second field; if that is falsy (`undefined` or empty) fall back to the
`auth_token` cookie; a still-falsy token means "no token" (`none`). -/
def extractToken (authHeader cookie : Option String) : Option String :=
  let t1 := headerToken authHeader
  let t2 := if jsTruthy t1 then t1 else cookie
  if jsTruthy t2 then t2 else none

/-- Outcome of the `authenticateToken` middleware: 401 when no token was
presented, 403 when `jwt.verify` rejected it, otherwise the request
proceeds with the decoded identity attached. -/
inductive AuthResult
  | missingToken
  | invalidToken
  | ok (user : Identity)
deriving DecidableEq, Repr

/-- HTTP status of each `authenticateToken` outcome (200 standing for
"request proceeds"). -/
def authStatus : AuthResult → Nat
  | .missingToken => 401
  | .invalidToken => 403
  | .ok _ => 200

/-- `authenticateToken` (`src/middleware/auth.ts`), parameterised by the
`jwt.verify` oracle: absent token → 401, failed verification → 403,
otherwise attach the decoded payload. -/
def authenticateToken (authHeader cookie : Option String)
    (verify : String → Option Identity) : AuthResult :=
  match extractToken authHeader cookie with
  | none => .missingToken
  | some t =>
    match verify t with
    | none => .invalidToken
    | some u => .ok u

/-- Data-level model of a signed JWT: payload, signing secret, issue and
expiry times. -/
structure TokenData where
  payload : Identity
  secret : String
  iat : Nat
  exp : Nat
deriving DecidableEq, Repr

/-- The hardcoded signing secret of `src/middleware/auth.ts`. -/
def JWT_SECRET : String := "teacher-dashboard-secret-key-2024"

/-- Model of `jwt.sign(payload, secret, expiresIn)`. -/
def jwtSign (user : Identity) (secret : String) (now expiresIn : Nat) :
    TokenData :=
  { payload := user, secret := secret, iat := now, exp := now + expiresIn }

/-- Model of `jwt.verify(token, secret)` at time `now`: succeeds exactly
when the token was signed with `secret` (a tampered token has a different
effective secret) and has not expired. -/
def jwtVerify (t : TokenData) (secret : String) (now : Nat) :
    Option Identity :=
  if t.secret = secret ∧ now ≤ t.exp then some t.payload else none

/-- `generateToken` (`src/middleware/auth.ts`): sign
`{ username, role, id }` with `JWT_SECRET` and a 24-hour (86400 s)
expiry. -/
def generateToken (user : Identity) (now : Nat) : TokenData :=
  jwtSign user JWT_SECRET now 86400

/-! ## Login route — unnamed auth-route source (`POST /auth/login`) -/

/-- Hardcoded credential pair of the login route. -/
def VALID_USERNAME : String := "teacher"

/-- Hardcoded credential pair of the login route. -/
def VALID_PASSWORD : String := "password123"

/-- Outcome of `POST /auth/login`: 400 when `express-validator`'s
`notEmpty` checks fail, 401 on a wrong credential pair, 200 with a fresh
token otherwise. -/
inductive LoginResult
  | validationFailed
  | invalidCredentials
  | ok (token : TokenData) (username : String) (role : Roles)
deriving DecidableEq, Repr

/-- HTTP status of each login outcome. -/
def loginStatus : LoginResult → Nat
  | .validationFailed => 400
  | .invalidCredentials => 401
  | .ok _ _ _ => 200

/-- The `POST /auth/login` handler: `notEmpty` validation on both fields,
strict comparison against `VALID_CREDENTIALS`, then
`generateToken(username, Roles.TEACHER, 1)`. -/
def loginHandler (username password : String) (now : Nat) : LoginResult :=
  if username == "" || password == "" then .validationFailed
  else if username != VALID_USERNAME || password != VALID_PASSWORD then
    .invalidCredentials
  else
    .ok (generateToken { username := username, role := .TEACHER, id := 1 } now)
      username .TEACHER

/-! ## List endpoint — `getStudents` (`src/controllers/analytics.ts`) and
`validateGetStudents` (`src/routes/students.ts`) -/

/-- Query parameters of `GET /students` before defaulting (`none` =
parameter absent). -/
structure GetStudentsQuery where
  subject : Option String := none
  page : Option Nat := none
  limit : Option Nat := none
  sortBy : Option String := none
  sortOrder : Option String := none
  search : Option String := none
deriving DecidableEq, Repr

/-- The four subjects accepted by the validators. -/
def allowedSubjects : List String := ["Math", "Science", "English", "History"]

/-- `validateGetStudents` (`src/routes/students.ts`): every parameter is
optional; when present, `subject` must be a known subject, `page` in
1..1000, `limit` in 1..100, `sortBy` in the sort whitelist, `sortOrder`
`asc` or `desc`, `search` 1..100 characters.  Returns `true` iff
`validationResult(req)` is empty. -/
def validateGetStudents (q : GetStudentsQuery) : Bool :=
  (match q.subject with
   | none => true
   | some s => allowedSubjects.contains s) &&
  (match q.page with
   | none => true
   | some p => 1 ≤ p && p ≤ 1000) &&
  (match q.limit with
   | none => true
   | some l => 1 ≤ l && l ≤ 100) &&
  (match q.sortBy with
   | none => true
   | some s => ["created_at", "name", "subject", "grade"].contains s) &&
  (match q.sortOrder with
   | none => true
   | some s => s == "asc" || s == "desc") &&
  (match q.search with
   | none => true
   | some s => 1 ≤ s.length && s.length ≤ 100)

/-- The `allowedSortFields` whitelist of `getStudents`. -/
def allowedSortFields : List String := ["created_at", "name", "subject", "grade"]

/-- `safeSortBy`: a `sortBy` outside the whitelist falls back to
`created_at`. -/
def safeSortField (sortBy : String) : String :=
  if allowedSortFields.contains sortBy then sortBy else "created_at"

/-- `safeSortOrder`: exactly `asc` sorts ascending, anything else
descending (`sortOrder === "asc" ? "ASC" : "DESC"`). -/
def safeSortDirection (sortOrder : String) : String :=
  if sortOrder == "asc" then "ASC" else "DESC"

/-- Is `needle` a prefix of `hay`? -/
def isPrefixChars : List Char → List Char → Bool
  | [], _ => true
  | _ :: _, [] => false
  | c :: cs, d :: ds => c == d && isPrefixChars cs ds

/-- Does `needle` occur contiguously inside `hay`? -/
def containsChars (needle : List Char) : List Char → Bool
  | [] => isPrefixChars needle []
  | d :: rest => isPrefixChars needle (d :: rest) || containsChars needle rest

/-- Model of SQL `field LIKE '%pat%'` (SQLite LIKE is case-insensitive on
ASCII): `pat` occurs as a substring of `field`, up to case. -/
def sqlLike (field pat : String) : Bool :=
  containsChars (lowerStr pat).toList (lowerStr field).toList

/-- The WHERE predicate built by `getStudents`: the conjunction of the
`id = ?` condition (role `STUDENT` only), the `subject = ?` condition and
the `(name LIKE ? OR subject LIKE ?)` search condition, each present only
when its parameter is. -/
def listPred (user : Option Identity) (subject search : Option String)
    (s : Student) : Bool :=
  (match user with
   | some u => if u.role = Roles.STUDENT then s.id == u.id else true
   | none => true) &&
  (match subject with
   | some subj => s.subject == subj
   | none => true) &&
  (match search with
   | some pat => sqlLike s.name pat || sqlLike s.subject pat
   | none => true)

/-- `ORDER BY` key comparison for one sort field (`a` before-or-equal `b`
ascending). The default branch is `created_at`, the only value
`safeSortField` can produce outside the whitelist. -/
def sortKeyLe (sortBy : String) (a b : Student) : Bool :=
  if sortBy == "name" then a.name ≤ b.name
  else if sortBy == "subject" then a.subject ≤ b.subject
  else if sortBy == "grade" then a.grade ≤ b.grade
  else a.created_at ≤ b.created_at

/-- `ORDER BY <field> ASC|DESC` over the filtered rows. -/
def sortRows (sortBy direction : String) (l : List Student) : List Student :=
  if direction == "ASC" then
    l.insertionSort (fun a b => sortKeyLe sortBy a b = true)
  else
    l.insertionSort (fun a b => sortKeyLe sortBy b a = true)

/-- A row of the list response.  The page SELECT is
`SELECT id, name, subject, grade, created_at FROM students` — it does not
select the email column, so the row object's `email` key is absent
(`none`). -/
structure ListRow where
  id : Nat
  name : String
  subject : String
  grade : ℚ
  created_at : Nat
  email : Option String
deriving DecidableEq, Repr

/-- Projection of a stored row onto the page SELECT's five columns; the
`email` key is not selected. -/
def toListRow (s : Student) : ListRow :=
  { id := s.id, name := s.name, subject := s.subject, grade := s.grade,
    created_at := s.created_at, email := none }

/-- Pagination metadata of the list response. -/
structure Pagination where
  currentPage : Nat
  totalPages : Nat
  totalItems : Nat
  itemsPerPage : Nat
  hasNext : Bool
  hasPrev : Bool
deriving DecidableEq, Repr

/-- Outcome of `getStudents`: 400 on validation failure, otherwise the
page of rows plus pagination metadata; `sqlOffset` records the `OFFSET`
value bound into the page query. -/
inductive ListResult
  | validationFailed
  | ok (rows : List ListRow) (pagination : Pagination) (sqlOffset : Nat)
deriving DecidableEq, Repr

/-- `Math.ceil(totalItems / limit)` for natural inputs (limit ≥ 1 is
guaranteed by validation/defaulting). -/
def jsCeilDiv (n m : Nat) : Nat := (n + m - 1) / m

/-- `getStudents` (`src/controllers/analytics.ts`): check
`validationResult`, apply defaults (`page = 1`, `limit = 20`,
`sortBy = "created_at"`, `sortOrder = "desc"`), filter by role/subject/
search, sort by the whitelisted field, page with
`LIMIT limit OFFSET (page-1)*limit`, and report pagination metadata
computed from the count query over the same predicate. -/
def getStudents (db : List Student) (user : Option Identity)
    (q : GetStudentsQuery) (errorsEmpty : Bool) : ListResult :=
  if !errorsEmpty then .validationFailed
  else
    let page := q.page.getD 1
    let limit := q.limit.getD 20
    let sortBy := q.sortBy.getD "created_at"
    let sortOrder := q.sortOrder.getD "desc"
    let filtered := db.filter (listPred user q.subject q.search)
    let totalItems := filtered.length
    let sorted := sortRows (safeSortField sortBy) (safeSortDirection sortOrder)
      filtered
    let offset := (page - 1) * limit
    let rows := ((sorted.drop offset).take limit).map toListRow
    let totalPages := jsCeilDiv totalItems limit
    .ok rows
      { currentPage := page, totalPages := totalPages,
        totalItems := totalItems, itemsPerPage := limit,
        hasNext := decide (page < totalPages),
        hasPrev := decide (1 < page) }
      offset

/-- The routed endpoint: `validateGetStudents` runs before the handler, so
the handler's `validationResult` check sees exactly its outcome. -/
def getStudentsEndpoint (db : List Student) (user : Option Identity)
    (q : GetStudentsQuery) : ListResult :=
  getStudents db user q (validateGetStudents q)

/-! ## Storage errors -/

/-- Classified sqlite failure of a storage statement, as the handlers'
`catch` blocks distinguish them: `SQLITE_CONSTRAINT_UNIQUE` (or the
`UNIQUE constraint failed` message), `SQLITE_CONSTRAINT_CHECK`, the
`database is locked` message, anything else. -/
inductive DbErr
  | uniqueEmail
  | checkConstraint
  | locked
  | other
deriving DecidableEq, Repr

/-- `AUTOINCREMENT` id assignment: one more than the largest id ever
used (no id above the current maximum has been used in our runs). -/
def nextId (db : List Student) : Nat :=
  (db.foldr (fun s acc => max s.id acc) 0) + 1

/-! ## Create — `createNewStudent` (`src/controllers/analytics.ts`) -/

/-- The create request body after route validation. -/
structure CreatePayload where
  name : String
  email : String
  subject : String
  grade : ℚ
deriving DecidableEq, Repr

/-- Outcome of `POST /students`. -/
inductive CreateResult
  | validationFailed
  | conflict
  | checkViolation
  | serverError
  | created (s : Student)
deriving DecidableEq, Repr

/-- HTTP status of each create outcome. -/
def createStatus : CreateResult → Nat
  | .validationFailed => 400
  | .conflict => 409
  | .checkViolation => 400
  | .serverError => 500
  | .created _ => 201

/-- The create handler's `catch` block: unique-constraint → 409,
check-constraint → 400, anything else (including a lock) → 500. -/
def createCatch : DbErr → CreateResult
  | .uniqueEmail => .conflict
  | .checkConstraint => .checkViolation
  | .locked => .serverError
  | .other => .serverError

/-- `createNewStudent`: validation check; advisory case-insensitive
duplicate lookup (`WHERE LOWER(email) = LOWER(?)`) → 409; then the
transactional INSERT with `email.toLowerCase()` — `insertErr` injects a
storage failure of that INSERT (e.g. the unique constraint losing a race),
handled by `createCatch` after the rollback.  Returns the response and the
resulting table. -/
def createNewStudent (db : List Student) (p : CreatePayload) (now : Nat)
    (errorsEmpty : Bool) (insertErr : Option DbErr) :
    CreateResult × List Student :=
  if !errorsEmpty then (.validationFailed, db)
  else if db.any (fun s => lowerStr s.email == lowerStr p.email) then
    (.conflict, db)
  else
    match insertErr with
    | some e => (createCatch e, db)
    | none =>
      let s : Student :=
        { id := nextId db, name := p.name, email := lowerStr p.email,
          subject := p.subject, grade := p.grade, created_at := now }
      (.created s, db ++ [s])

/-! ## Update — `updateStudent` (`src/controllers/analytics.ts`) -/

/-- The update request body: the four whitelisted optional fields, plus
the names of any other keys present in the JSON body (ignored by the
whitelist filter). -/
structure UpdatePayload where
  name : Option String := none
  email : Option String := none
  subject : Option String := none
  grade : Option ℚ := none
  extraFields : List String := []
deriving DecidableEq, Repr

/-- `Object.keys(updates).filter(field ∈ allowedFields ∧ defined)` — the
whitelisted fields actually provided. -/
def updateFields (u : UpdatePayload) : List String :=
  (if u.name.isSome then ["name"] else []) ++
  (if u.email.isSome then ["email"] else []) ++
  (if u.subject.isSome then ["subject"] else []) ++
  (if u.grade.isSome then ["grade"] else [])

/-- The UPDATE's SET clause applied to the existing row: each provided
field overwrites, email normalised with `toLowerCase`. -/
def applyUpdates (s : Student) (u : UpdatePayload) : Student :=
  { s with
    name := u.name.getD s.name,
    email := (u.email.map lowerStr).getD s.email,
    subject := u.subject.getD s.subject,
    grade := u.grade.getD s.grade }

/-- Outcome of `PUT /students/:id`. -/
inductive UpdateResult
  | validationFailed
  | invalidId
  | notFound
  | noValidFields
  | conflict
  | checkViolation
  | serverError
  | updated (s : Student)
deriving DecidableEq, Repr

/-- HTTP status of each update outcome. -/
def updateStatus : UpdateResult → Nat
  | .validationFailed => 400
  | .invalidId => 400
  | .notFound => 404
  | .noValidFields => 400
  | .conflict => 409
  | .checkViolation => 400
  | .serverError => 500
  | .updated _ => 200

/-- The update handler's `catch` block. -/
def updateCatch : DbErr → UpdateResult
  | .uniqueEmail => .conflict
  | .checkConstraint => .checkViolation
  | .locked => .serverError
  | .other => .serverError

/-- The duplicate-email pre-check of `updateStudent`: run only when a
truthy email is provided whose lowercase form differs from the current
one; looks for `LOWER(email) = LOWER(?) AND id != ?`. -/
def updateEmailConflict (db : List Student) (idq : ℚ) (existing : Student)
    (u : UpdatePayload) : Bool :=
  match u.email with
  | none => false
  | some e =>
    e != "" && lowerStr e != lowerStr existing.email &&
      db.any (fun s => lowerStr s.email == lowerStr e && ((s.id : ℚ) != idq))

/-- `updateStudent`: validation; `!id || isNaN(Number(id))` → 400; row
lookup → 404; whitelist intersection empty → 400; advisory duplicate-email
check → 409; then the transactional UPDATE, whose outcome (`changes` count
or a storage error) is injected through `updOutcome` — zero affected rows
throws and rolls back (surfaced as 500), a storage error is mapped by
`updateCatch`.  Returns the response and the resulting table. -/
def updateStudent (db : List Student) (idParam : Option ℚ)
    (u : UpdatePayload) (errorsEmpty : Bool)
    (updOutcome : Except DbErr Nat) : UpdateResult × List Student :=
  if !errorsEmpty then (.validationFailed, db)
  else
    match idParam with
    | none => (.invalidId, db)
    | some idq =>
      match db.find? (fun s => (s.id : ℚ) == idq) with
      | none => (.notFound, db)
      | some existing =>
        if updateFields u = [] then (.noValidFields, db)
        else if updateEmailConflict db idq existing u then (.conflict, db)
        else
          match updOutcome with
          | .error e => (updateCatch e, db)
          | .ok 0 => (.serverError, db)
          | .ok (_ + 1) =>
            let s' := applyUpdates existing u
            (.updated s',
             db.map (fun s => if (s.id : ℚ) == idq then s' else s))

/-- The sequential (no-interference) instantiation of the UPDATE outcome:
`changes` is the number of rows matching `WHERE id = ?`. -/
def updateStudentSeq (db : List Student) (idParam : Option ℚ)
    (u : UpdatePayload) (errorsEmpty : Bool) : UpdateResult × List Student :=
  updateStudent db idParam u errorsEmpty
    (.ok (db.countP (fun s => (s.id : ℚ) == idParam.getD 0)))

/-! ## Delete — `deleteStudent` (`src/controllers/analytics.ts`) -/

/-- Outcome of `DELETE /students/:id`. -/
inductive DeleteResult
  | invalidId
  | notFound
  | locked
  | serverError
  | deleted (deletedId : Nat) (name email subject : String)
deriving DecidableEq, Repr

/-- HTTP status of each delete outcome (`database is locked` → 503). -/
def deleteStatus : DeleteResult → Nat
  | .invalidId => 400
  | .notFound => 404
  | .locked => 503
  | .serverError => 500
  | .deleted _ _ _ _ => 200

/-- `deleteStudent`: `!id || isNaN(Number(id)) || Number(id) <= 0` → 400;
row lookup → 404; then the transactional DELETE, whose outcome is
injected through `delOutcome` — a storage error whose message contains
`database is locked` → 503, any other error or zero affected rows
(concurrent deletion) → rollback and 500.  Returns the response and the
resulting table. -/
def deleteStudent (db : List Student) (idParam : Option ℚ)
    (delOutcome : Except DbErr Nat) : DeleteResult × List Student :=
  match idParam with
  | none => (.invalidId, db)
  | some idq =>
    if idq ≤ 0 then (.invalidId, db)
    else
      match db.find? (fun s => (s.id : ℚ) == idq) with
      | none => (.notFound, db)
      | some existing =>
        match delOutcome with
        | .error e =>
          (if e = .locked then .locked else .serverError, db)
        | .ok 0 => (.serverError, db)
        | .ok (_ + 1) =>
          (.deleted existing.id existing.name existing.email existing.subject,
           db.filter (fun s => !((s.id : ℚ) == idq)))

/-- The sequential (no-interference) instantiation of the DELETE outcome:
`changes` is the number of rows matching `WHERE id = ?`. -/
def deleteStudentSeq (db : List Student) (idParam : Option ℚ) :
    DeleteResult × List Student :=
  deleteStudent db idParam
    (.ok (db.countP (fun s => (s.id : ℚ) == idParam.getD 0)))

/-! ## Analytics — `getAnalytics` (`src/controllers/analytics.ts`) -/

/-- One step of the SQL `AVG(grade) ... GROUP BY subject` aggregation:
fold a row's grade into the running (sum, count) of its subject's group,
opening a new group on first sight. -/
def upsertGroup : List (String × ℚ × Nat) → String → ℚ →
    List (String × ℚ × Nat)
  | [], subj, g => [(subj, g, 1)]
  | (s, sum, cnt) :: rest, subj, g =>
    if s == subj then (s, sum + g, cnt + 1) :: rest
    else (s, sum, cnt) :: upsertGroup rest subj g

/-- The grouped aggregation state after scanning the rows: per subject,
the sum and count of its grades (SQL `GROUP BY subject` with running
`AVG` accumulators). -/
def groupAccum : List Student → List (String × ℚ × Nat)
  | [] => []
  | s :: rest => upsertGroup (groupAccum rest) s.subject s.grade

/-- `SELECT subject, AVG(grade) ... GROUP BY subject`: each group's sum
divided by its count. -/
def avgBySubject (rows : List Student) : List (String × ℚ) :=
  (groupAccum rows).map (fun g => (g.1, g.2.1 / (g.2.2 : ℚ)))

/-- `Math.round(x * 100) / 100` — rounding to 2 decimal places, halves
toward positive infinity. -/
def jsRound2 (q : ℚ) : ℚ := ((⌊q * 100 + 1/2⌋ : ℤ) : ℚ) / 100

/-- The analytics payload: total count, per-subject rounded average (a JS
object, modelled as an association list queried with `List.lookup`), and
the most recent rows. -/
structure AnalyticsData where
  totalStudents : Nat
  averageGradeBySubject : List (String × ℚ)
  recentAdditions : List Student
deriving DecidableEq, Repr

/-- Outcome of `GET /analytics`. -/
inductive AnalyticsResult
  | validationFailed
  | ok (data : AnalyticsData)
deriving DecidableEq, Repr

/-- `getAnalytics`: validation check; the three queries (COUNT, grouped
AVG, recent rows ordered by `created_at DESC LIMIT limit`) share the
optional `subject = ?` filter; the per-subject averages are rounded to two
decimals (`Math.round(row.average * 100) / 100`); `limit` defaults
to 10. -/
def getAnalytics (db : List Student) (limit : Option Nat)
    (subject : Option String) (errorsEmpty : Bool) : AnalyticsResult :=
  if !errorsEmpty then .validationFailed
  else
    let lim := limit.getD 10
    let rows := match subject with
      | some subj => db.filter (fun s => s.subject == subj)
      | none => db
    .ok
      { totalStudents := rows.length,
        averageGradeBySubject :=
          (avgBySubject rows).map (fun p => (p.1, jsRound2 p.2)),
        recentAdditions := (sortRows "created_at" "DESC" rows).take lim }

/-! ## Seed data — `insertSampleData` (`src/database/init.ts`) -/

/-- The six sample rows inserted on first run (ids and `created_at`
ordinals assigned by storage in insertion order). -/
def sampleStudents : List Student :=
  [{ id := 1, name := "John Doe", email := "john.doe@example.com",
     subject := "Math", grade := 85, created_at := 1 },
   { id := 2, name := "Jane Smith", email := "jane.smith@example.com",
     subject := "Science", grade := 92, created_at := 2 },
   { id := 3, name := "Bob Johnson", email := "bob.johnson@example.com",
     subject := "English", grade := 78, created_at := 3 },
   { id := 4, name := "Alice Brown", email := "alice.brown@example.com",
     subject := "History", grade := 88, created_at := 4 },
   { id := 5, name := "Charlie Wilson", email := "charlie.wilson@example.com",
     subject := "Math", grade := 95, created_at := 5 },
   { id := 6, name := "Diana Davis", email := "diana.davis@example.com",
     subject := "Science", grade := 89, created_at := 6 }]

/-! ## Claims -/

/-- C10 counterexample: the header value `"Bearer "` does have a second
space-separated field (the empty string), yet with a cookie present the
gate does not use that field as the token — it consults and uses the
`auth_token` cookie instead, contradicting "only when the header is absent
or has no second field is the auth_token cookie consulted". -/
theorem claim_c10_counterexample :
    (jsSplitSpace "Bearer ").get? 1 = some "" ∧
    extractToken (some "Bearer ") (some "cookietok") = some "cookietok" ∧
    (some "cookietok" : Option String) ≠ some "" := by
  refine ⟨by decide, by decide, by decide⟩

/-- C10 amended: if the Authorization header has a second space-separated
field and that field is nonempty, the gate uses it as the token regardless
of the first field; if the header is absent, has no second field, or its
second field is empty, the gate behaves as with no header, consulting the
`auth_token` cookie (a truthy cookie is the token, otherwise there is no
token). -/
theorem claim_c10_theorem :
    (∀ h c t, headerToken (some h) = some t → t ≠ "" →
      extractToken (some h) c = some t) ∧
    (∀ h c, (headerToken (some h) = none ∨ headerToken (some h) = some "") →
      extractToken (some h) c = extractToken none c) ∧
    (∀ c, extractToken none c = if jsTruthy c then c else none) := by
  refine ⟨?_, ?_, ?_⟩
  · intro h c t hh ht
    simp only [extractToken, hh, jsTruthy]
    rw [if_pos, if_pos] <;> simp [ht]
  · intro h c hh
    rcases hh with hh | hh <;> simp only [extractToken, hh] <;> rfl
  · intro c
    rfl

/-- C10 witness: concrete instantiations — a non-`Bearer` scheme still
yields the second field; a `"Bearer "` header (empty second field) behaves
like an absent header; an absent header consults the cookie. -/
theorem claim_c10_witness :
    extractToken (some "Token abc") (some "ck") = some "abc" ∧
    extractToken (some "Bearer ") (some "ck") = extractToken none (some "ck") ∧
    extractToken none (some "ck") =
      if jsTruthy (some "ck") then some "ck" else none :=
  ⟨claim_c10_theorem.1 "Token abc" (some "ck") "abc" (by decide) (by decide),
   claim_c10_theorem.2.1 "Bearer " (some "ck") (Or.inr (by decide)),
   claim_c10_theorem.2.2 (some "ck")⟩

/-- C3 counterexample: the credential pair `("", "password123")` is a
credential pair other than the fixed one, but it fails the `notEmpty`
validation with 400, not with 401 Unauthorized as the claim states. -/
theorem claim_c3_counterexample :
    loginStatus (loginHandler "" "password123" 0) = 400 ∧
    (400 : Nat) ≠ 401 := by
  exact ⟨rfl, by decide⟩

/-- C3 amended: login succeeds exactly for the fixed pair, returning a
token that (until its 24-hour expiry) verifies to the payload
`role = Teacher, id = 1`; any other pair with both fields nonempty fails
with 401 (a pair with an empty field fails validation with 400 instead);
a request with neither header nor cookie token fails with 401; a
presented token that fails verification — in the JWT model, one whose
signing secret differs (tampered) or whose expiry has passed — fails
with 403. -/
theorem claim_c3_theorem :
    (∀ now now2, now2 ≤ now + 86400 →
      loginHandler VALID_USERNAME VALID_PASSWORD now =
        .ok (generateToken ⟨VALID_USERNAME, .TEACHER, 1⟩ now)
          VALID_USERNAME .TEACHER ∧
      jwtVerify (generateToken ⟨VALID_USERNAME, .TEACHER, 1⟩ now)
          JWT_SECRET now2 = some ⟨VALID_USERNAME, .TEACHER, 1⟩) ∧
    (∀ u p now, u ≠ "" → p ≠ "" →
      ¬(u = VALID_USERNAME ∧ p = VALID_PASSWORD) →
      loginStatus (loginHandler u p now) = 401) ∧
    (∀ verify, authStatus (authenticateToken none none verify) = 401) ∧
    (∀ h c verify t, extractToken h c = some t → verify t = none →
      authStatus (authenticateToken h c verify) = 403) ∧
    (∀ t now2, t.secret ≠ JWT_SECRET ∨ t.exp < now2 →
      jwtVerify t JWT_SECRET now2 = none) := by
  refine ⟨?_, ?_, ?_, ?_, ?_⟩
  · intro now now2 hlt
    refine ⟨rfl, ?_⟩
    simp [jwtVerify, generateToken, jwtSign, hlt]
  · intro u p now hu hp hne
    simp only [loginHandler]
    rw [if_neg, if_pos]
    · rfl
    · simp only [Bool.or_eq_true, bne_iff_ne]
      by_contra hna
      push_neg at hna
      exact hne ⟨hna.1, hna.2⟩
    · simp [hu, hp]
  · intro verify
    rfl
  · intro h c verify t hext hv
    simp only [authenticateToken, hext, hv]
    rfl
  · intro t now2 hbad
    simp only [jwtVerify]
    rw [if_neg]
    rintro ⟨hsec, hexp⟩
    rcases hbad with hbad | hbad
    · exact hbad hsec
    · omega

/-- C3 witness: the fixed pair logs in and its token verifies within 24
hours; a wrong nonempty pair gets 401; no token gets 401; a failing token
gets 403; a token signed with another secret does not verify. -/
theorem claim_c3_witness :
    (loginHandler "teacher" "password123" 5 =
       .ok (generateToken ⟨"teacher", .TEACHER, 1⟩ 5) "teacher" .TEACHER ∧
     jwtVerify (generateToken ⟨"teacher", .TEACHER, 1⟩ 5) JWT_SECRET 100 =
       some ⟨"teacher", .TEACHER, 1⟩) ∧
    loginStatus (loginHandler "intruder" "guess" 0) = 401 ∧
    authStatus (authenticateToken none none (fun _ => none)) = 401 ∧
    authStatus (authenticateToken (some "Bearer tok") none
      (fun _ => none)) = 403 ∧
    jwtVerify ⟨⟨"teacher", .TEACHER, 1⟩, "other-secret", 0, 86400⟩
      JWT_SECRET 10 = none :=
  ⟨claim_c3_theorem.1 5 100 (by norm_num),
   claim_c3_theorem.2.1 "intruder" "guess" 0 (by decide) (by decide)
     (by decide),
   claim_c3_theorem.2.2.1 _,
   claim_c3_theorem.2.2.2.1 (some "Bearer tok") none _ "tok" (by decide) rfl,
   claim_c3_theorem.2.2.2.2 _ 10 (Or.inl (by decide))⟩

/-- C2 counterexample: a list request carrying `sortBy=evil` (a value
outside the whitelist) does not succeed with a `created_at` ordering —
`validateGetStudents` rejects it and the endpoint answers 400 Validation
failed. -/
theorem claim_c2_counterexample :
    ("evil" ∈ allowedSortFields → False) ∧
    getStudentsEndpoint sampleStudents (some ⟨"teacher", .TEACHER, 1⟩)
      { sortBy := some "evil" } = .validationFailed := by
  refine ⟨by decide, by decide⟩

/-- C2 amended: inside the handler, the sort-field computation maps any
value outside the whitelist to `created_at`, and any sort order other
than `asc` to `DESC`; but a request whose `sortBy` lies outside the
whitelist never reaches that fallback through the route — route
validation rejects it with 400. -/
theorem claim_c2_theorem :
    (∀ s, s ∉ allowedSortFields → safeSortField s = "created_at") ∧
    (∀ o, o ≠ "asc" → safeSortDirection o = "DESC") ∧
    (∀ db user q s, q.sortBy = some s → s ∉ allowedSortFields →
      getStudentsEndpoint db user q = .validationFailed) := by
  refine ⟨?_, ?_, ?_⟩
  · intro s hs
    simp only [safeSortField]
    rw [if_neg]
    rw [List.elem_iff]
    exact hs
  · intro o ho
    simp only [safeSortDirection]
    rw [if_neg]
    simp only [beq_iff_eq]
    exact ho
  · intro db user q s hq hs
    have hc : (["created_at", "name", "subject", "grade"] : List String).contains s = false := by
      rw [Bool.eq_false_iff]
      intro hmem
      exact hs (List.elem_iff.mp hmem)
    have hv : validateGetStudents q = false := by
      simp only [validateGetStudents, hq, hc]
      simp
    simp [getStudentsEndpoint, getStudents, hv]

/-- C2 witness: concrete instantiations of the fallback computations and
of the route-level rejection. -/
theorem claim_c2_witness :
    safeSortField "evil" = "created_at" ∧
    safeSortDirection "descending" = "DESC" ∧
    getStudentsEndpoint sampleStudents none { sortBy := some "evil" } =
      .validationFailed :=
  ⟨claim_c2_theorem.1 "evil" (by decide),
   claim_c2_theorem.2.1 "descending" (by decide),
   claim_c2_theorem.2.2 sampleStudents none { sortBy := some "evil" } "evil"
     rfl (by decide)⟩

/-- C4 (at the handler level, i.e. for requests past route validation):
an existing record with the same email up to case gives 409 with no
mutation; an injected storage unique-constraint failure gives 409 whether
or not the advisory check fired; a check-constraint violation gives 400;
any other storage failure gives 500; a successful create stores the
lowercase form of the submitted email. -/
theorem claim_c4_theorem :
    (∀ db p now ierr s, s ∈ db → lowerStr s.email = lowerStr p.email →
      createStatus (createNewStudent db p now true ierr).1 = 409 ∧
      (createNewStudent db p now true ierr).2 = db) ∧
    (∀ db p now,
      createStatus
        (createNewStudent db p now true (some .uniqueEmail)).1 = 409) ∧
    (∀ db p now, (∀ s ∈ db, lowerStr s.email ≠ lowerStr p.email) →
      createStatus
        (createNewStudent db p now true (some .checkConstraint)).1 = 400) ∧
    (∀ db p now e, e ≠ DbErr.uniqueEmail → e ≠ DbErr.checkConstraint →
      (∀ s ∈ db, lowerStr s.email ≠ lowerStr p.email) →
      createStatus (createNewStudent db p now true (some e)).1 = 500) ∧
    (∀ db p now s2, (createNewStudent db p now true none).1 = .created s2 →
      s2.email = lowerStr p.email ∧
      s2 ∈ (createNewStudent db p now true none).2) := by
  refine ⟨?_, ?_, ?_, ?_, ?_⟩
  · intro db p now ierr s hs he
    have hany : db.any (fun s => lowerStr s.email == lowerStr p.email) = true :=
      List.any_eq_true.mpr ⟨s, hs, by simp [he]⟩
    constructor <;> simp [createNewStudent, hany, createStatus]
  · intro db p now
    cases hany : db.any (fun s => lowerStr s.email == lowerStr p.email) <;>
      simp [createNewStudent, hany, createCatch, createStatus]
  · intro db p now hfresh
    have hany : db.any (fun s => lowerStr s.email == lowerStr p.email) = false := by
      rw [Bool.eq_false_iff]
      intro hcontra
      obtain ⟨s, hs, he⟩ := List.any_eq_true.mp hcontra
      exact hfresh s hs (by simpa using he)
    simp [createNewStudent, hany, createCatch, createStatus]
  · intro db p now e hu hc hfresh
    have hany : db.any (fun s => lowerStr s.email == lowerStr p.email) = false := by
      rw [Bool.eq_false_iff]
      intro hcontra
      obtain ⟨s, hs, he⟩ := List.any_eq_true.mp hcontra
      exact hfresh s hs (by simpa using he)
    cases e with
    | uniqueEmail => exact absurd rfl hu
    | checkConstraint => exact absurd rfl hc
    | locked => simp [createNewStudent, hany, createCatch, createStatus]
    | other => simp [createNewStudent, hany, createCatch, createStatus]
  · intro db p now s2 hcr
    cases hany : db.any (fun s => lowerStr s.email == lowerStr p.email) with
    | true => simp [createNewStudent, hany] at hcr
    | false =>
      have hcr2 : CreateResult.created
          { id := nextId db, name := p.name, email := lowerStr p.email,
            subject := p.subject, grade := p.grade, created_at := now } =
          CreateResult.created s2 := by
        simpa [createNewStudent, hany] using hcr
      injection hcr2 with h2
      subst h2
      refine ⟨rfl, ?_⟩
      simp [createNewStudent, hany]

/-- C4 witness: concrete instantiations over the seed table — duplicate
email up to case, each injected storage failure, and a clean create
storing the lowercase email. -/
theorem claim_c4_witness :
    (createStatus (createNewStudent sampleStudents
       ⟨"Johnny", "John.Doe@Example.com", "Math", 50⟩ 9 true none).1 = 409 ∧
     (createNewStudent sampleStudents
       ⟨"Johnny", "John.Doe@Example.com", "Math", 50⟩ 9 true none).2 =
       sampleStudents) ∧
    createStatus (createNewStudent sampleStudents
      ⟨"New Guy", "new@example.com", "Math", 50⟩ 9 true
      (some .uniqueEmail)).1 = 409 ∧
    createStatus (createNewStudent sampleStudents
      ⟨"New Guy", "new@example.com", "Math", 50⟩ 9 true
      (some .checkConstraint)).1 = 400 ∧
    createStatus (createNewStudent sampleStudents
      ⟨"New Guy", "new@example.com", "Math", 50⟩ 9 true
      (some .locked)).1 = 500 ∧
    ((⟨7, "New Guy", "new@example.com", "Math", 50, 9⟩ : Student).email =
       lowerStr "NEW@Example.com" ∧
     (⟨7, "New Guy", "new@example.com", "Math", 50, 9⟩ : Student) ∈
       (createNewStudent sampleStudents
         ⟨"New Guy", "NEW@Example.com", "Math", 50⟩ 9 true none).2) :=
  ⟨claim_c4_theorem.1 sampleStudents
     ⟨"Johnny", "John.Doe@Example.com", "Math", 50⟩ 9 none
     ⟨1, "John Doe", "john.doe@example.com", "Math", 85, 1⟩
     (by decide) (by decide),
   claim_c4_theorem.2.1 sampleStudents
     ⟨"New Guy", "new@example.com", "Math", 50⟩ 9,
   claim_c4_theorem.2.2.1 sampleStudents
     ⟨"New Guy", "new@example.com", "Math", 50⟩ 9 (by decide),
   claim_c4_theorem.2.2.2.1 sampleStudents
     ⟨"New Guy", "new@example.com", "Math", 50⟩ 9 .locked
     (by decide) (by decide) (by decide),
   claim_c4_theorem.2.2.2.2 sampleStudents
     ⟨"New Guy", "NEW@Example.com", "Math", 50⟩ 9
     ⟨7, "New Guy", "new@example.com", "Math", 50, 9⟩ (by decide)⟩


/-- C5 (at the handler level): a numeric id matching no record gives 404;
a body whose whitelisted-field intersection is empty gives 400 with no
mutation (given the id matches a record, as the 404 check runs first); an
email changed to another record's email up to case gives 409 with no
mutation (under the stored case-insensitive uniqueness invariant); and a
successful update writes any updated email in lowercase, both in the
reported record and in storage. -/
theorem claim_c5_theorem :
    (∀ db idq u out, (∀ s ∈ db, (s.id : ℚ) ≠ idq) →
      updateStatus (updateStudent db (some idq) u true out).1 = 404) ∧
    (∀ db idq u out, u.name = none → u.email = none → u.subject = none →
      u.grade = none → (∃ ex ∈ db, (ex.id : ℚ) = idq) →
      updateStatus (updateStudent db (some idq) u true out).1 = 400 ∧
      (updateStudent db (some idq) u true out).2 = db) ∧
    (∀ db idq u out e other, u.email = some e → e ≠ "" →
      (∀ s1 ∈ db, ∀ s2 ∈ db, s1.id ≠ s2.id →
        lowerStr s1.email ≠ lowerStr s2.email) →
      other ∈ db → (other.id : ℚ) ≠ idq →
      lowerStr other.email = lowerStr e →
      (∃ ex ∈ db, (ex.id : ℚ) = idq) →
      updateStatus (updateStudent db (some idq) u true out).1 = 409 ∧
      (updateStudent db (some idq) u true out).2 = db) ∧
    (∀ db idParam u out s2,
      (updateStudent db idParam u true out).1 = .updated s2 →
      ∀ e, u.email = some e → s2.email = lowerStr e ∧
        ∀ s ∈ (updateStudent db idParam u true out).2,
          s.id = s2.id → s.email = lowerStr e) := by
  refine ⟨?_, ?_, ?_, ?_⟩
  · intro db idq u out hno
    have hfind : db.find? (fun s => (s.id : ℚ) == idq) = none :=
      List.find?_eq_none.mpr (fun s hs => by simp [hno s hs])
    simp [updateStudent, hfind, updateStatus]
  · intro db idq u out hn he hs hg hex
    obtain ⟨ex, hexmem, hexid⟩ := hex
    have hfind : (db.find? (fun s => (s.id : ℚ) == idq)).isSome :=
      List.find?_isSome.mpr ⟨ex, hexmem, by simp [hexid]⟩
    cases hfd : db.find? (fun s => (s.id : ℚ) == idq) with
    | none => rw [hfd] at hfind; simp at hfind
    | some ex2 =>
      have hflds : updateFields u = [] := by
        simp [updateFields, hn, he, hs, hg]
      constructor <;> simp [updateStudent, hfd, hflds, updateStatus]
  · intro db idq u out e other hue hne hinv homem hoid holow hex
    obtain ⟨ex, hexmem, hexid⟩ := hex
    have hfind : (db.find? (fun s => (s.id : ℚ) == idq)).isSome :=
      List.find?_isSome.mpr ⟨ex, hexmem, by simp [hexid]⟩
    cases hfd : db.find? (fun s => (s.id : ℚ) == idq) with
    | none => rw [hfd] at hfind; simp at hfind
    | some ex2 =>
      have hex2mem : ex2 ∈ db := List.mem_of_find?_eq_some hfd
      have hex2id : (ex2.id : ℚ) = idq := by
        have hp := List.find?_some hfd
        simpa using hp
      have hflds : updateFields u ≠ [] := by
        intro hempty
        have hmem : "email" ∈ updateFields u := by
          simp [updateFields, hue]
        rw [hempty] at hmem
        simp at hmem
      have hlowne : lowerStr e ≠ lowerStr ex2.email := by
        intro heq
        have hidne : other.id ≠ ex2.id := by
          intro hii
          exact hoid (by rw [hii, hex2id])
        exact hinv other homem ex2 hex2mem hidne (by rw [holow, heq])
      have hconf : updateEmailConflict db idq ex2 u = true := by
        simp only [updateEmailConflict, hue]
        rw [Bool.and_eq_true, Bool.and_eq_true]
        refine ⟨⟨?_, ?_⟩, ?_⟩
        · rw [bne_iff_ne]
          exact hne
        · rw [bne_iff_ne]
          exact hlowne
        · refine List.any_eq_true.mpr ⟨other, homem, ?_⟩
          rw [Bool.and_eq_true]
          exact ⟨by simp [holow], by rw [bne_iff_ne]; exact hoid⟩
      constructor <;>
        simp [updateStudent, hfd, hflds, hconf, updateStatus]
  · intro db idParam u out s2 hupd e hue
    cases idParam with
    | none => simp [updateStudent] at hupd
    | some idq =>
      cases hfd : db.find? (fun s => (s.id : ℚ) == idq) with
      | none => simp [updateStudent, hfd] at hupd
      | some ex =>
        by_cases hflds : updateFields u = []
        · simp [updateStudent, hfd, hflds] at hupd
        · by_cases hconfp : updateEmailConflict db idq ex u = true
          · simp [updateStudent, hfd, hflds, hconfp] at hupd
          · have hconf : updateEmailConflict db idq ex u = false :=
              Bool.not_eq_true _ |>.mp hconfp
            match out with
            | .error err =>
              cases err <;>
                simp [updateStudent, hfd, hflds, hconf, updateCatch] at hupd
            | .ok 0 => simp [updateStudent, hfd, hflds, hconf] at hupd
            | .ok (n + 1) =>
              have hs2 : applyUpdates ex u = s2 := by
                have hupd2 := hupd
                simp [updateStudent, hfd, hflds, hconf] at hupd2
                exact hupd2
              subst hs2
              have hmail : (applyUpdates ex u).email = lowerStr e := by
                simp [applyUpdates, hue]
              refine ⟨hmail, ?_⟩
              intro s hsmem hsid
              have hdb2 : (updateStudent db (some idq) u true (.ok (n + 1))).2 =
                  db.map (fun s => if (s.id : ℚ) == idq
                    then applyUpdates ex u else s) := by
                simp [updateStudent, hfd, hflds, hconf]
              rw [hdb2] at hsmem
              obtain ⟨orig, horig, hfeq⟩ := List.mem_map.mp hsmem
              have hexid : (ex.id : ℚ) = idq := by
                have hp := List.find?_some hfd
                simpa using hp
              by_cases hc : ((orig.id : ℚ) == idq) = true
              · rw [if_pos hc] at hfeq
                rw [← hfeq]
                exact hmail
              · rw [if_neg hc] at hfeq
                exfalso
                apply hc
                have horigid : orig.id = ex.id := by
                  have : s.id = (applyUpdates ex u).id := hsid
                  rw [← hfeq] at this
                  simpa [applyUpdates] using this
                rw [beq_iff_eq, horigid, hexid]

/-- C5 witness: concrete instantiations over the seed table — unmatched
id, body with only an unwhitelisted field, email moved onto another
record's email with different case, and a successful lowercase-normalised
email update. -/
theorem claim_c5_witness :
    updateStatus (updateStudent sampleStudents (some 99) {} true
      (.ok 0)).1 = 404 ∧
    (updateStatus (updateStudent sampleStudents (some 1)
        { extraFields := ["hacked"] } true (.ok 1)).1 = 400 ∧
      (updateStudent sampleStudents (some 1) { extraFields := ["hacked"] }
        true (.ok 1)).2 = sampleStudents) ∧
    (updateStatus (updateStudent sampleStudents (some 1)
        { email := some "Jane.Smith@Example.com" } true (.ok 1)).1 = 409 ∧
      (updateStudent sampleStudents (some 1)
        { email := some "Jane.Smith@Example.com" } true (.ok 1)).2 =
        sampleStudents) ∧
    (⟨1, "John Doe", "new@example.com", "Math", 85, 1⟩ : Student).email =
      lowerStr "NEW@Example.com" :=
  ⟨claim_c5_theorem.1 sampleStudents 99 {} (.ok 0) (by decide),
   claim_c5_theorem.2.1 sampleStudents 1 { extraFields := ["hacked"] }
     (.ok 1) rfl rfl rfl rfl
     ⟨⟨1, "John Doe", "john.doe@example.com", "Math", 85, 1⟩,
       by decide, by decide⟩,
   claim_c5_theorem.2.2.1 sampleStudents 1
     { email := some "Jane.Smith@Example.com" } (.ok 1)
     "Jane.Smith@Example.com"
     ⟨2, "Jane Smith", "jane.smith@example.com", "Science", 92, 2⟩
     rfl (by decide) (by decide) (by decide) (by decide) (by decide)
     ⟨⟨1, "John Doe", "john.doe@example.com", "Math", 85, 1⟩,
       by decide, by decide⟩,
   (claim_c5_theorem.2.2.2 sampleStudents (some 1)
     { email := some "NEW@Example.com" } (.ok 1)
     ⟨1, "John Doe", "new@example.com", "Math", 85, 1⟩ (by decide)
     "NEW@Example.com" rfl).1⟩

/-- C6 counterexample: the id parameter `"2.5"` — `Number("2.5") = 5/2`,
not a positive integer — passes the handler's id validation (which only
requires a positive number) and reaches the row lookup, answering 404,
not the 400 the claim requires. -/
theorem claim_c6_counterexample :
    (mkRat 5 2).den ≠ 1 ∧ (0 : ℚ) < mkRat 5 2 ∧
    deleteStatus (deleteStudentSeq sampleStudents (some (mkRat 5 2))).1 =
      404 ∧
    (404 : Nat) ≠ 400 := by
  refine ⟨by decide, by decide, by decide, by decide⟩

/-- C6 amended: the delete id check rejects with 400 exactly the ids whose
`Number` parse is `NaN` or not positive (a positive non-integer id instead
reaches the lookup and yields 404); a positive id matching no record gives
404; deleting the same id twice in sequence succeeds first and fails the
second time with 404; a `database is locked` failure gives 503 with no
mutation; zero rows affected after the existence check is a rollback and
500, not a success. -/
theorem claim_c6_theorem :
    (∀ db out, deleteStatus (deleteStudent db none out).1 = 400) ∧
    (∀ db out q, q ≤ 0 →
      deleteStatus (deleteStudent db (some q) out).1 = 400) ∧
    (∀ db q, 0 < q → (∀ s ∈ db, (s.id : ℚ) ≠ q) →
      deleteStatus (deleteStudentSeq db (some q)).1 = 404) ∧
    (∀ db q s, 0 < q → s ∈ db → (s.id : ℚ) = q →
      deleteStatus (deleteStudentSeq db (some q)).1 = 200 ∧
      deleteStatus
        (deleteStudentSeq (deleteStudentSeq db (some q)).2 (some q)).1 =
        404) ∧
    (∀ db q s, 0 < q → s ∈ db → (s.id : ℚ) = q →
      deleteStatus (deleteStudent db (some q) (.error .locked)).1 = 503 ∧
      (deleteStudent db (some q) (.error .locked)).2 = db) ∧
    (∀ db q s, 0 < q → s ∈ db → (s.id : ℚ) = q →
      deleteStatus (deleteStudent db (some q) (.ok 0)).1 = 500 ∧
      (deleteStudent db (some q) (.ok 0)).2 = db) := by
  have hfindsome : ∀ (db : List Student) (q : ℚ) (s : Student), s ∈ db →
      (s.id : ℚ) = q → (db.find? (fun s => (s.id : ℚ) == q)).isSome :=
    fun db q s hs hid => List.find?_isSome.mpr ⟨s, hs, by simp [hid]⟩
  refine ⟨?_, ?_, ?_, ?_, ?_, ?_⟩
  · intro db out
    rfl
  · intro db out q hq
    simp [deleteStudent, deleteStatus, hq]
  · intro db q hq hno
    have hfind : db.find? (fun s => (s.id : ℚ) == q) = none :=
      List.find?_eq_none.mpr (fun s hs => by simp [hno s hs])
    simp [deleteStudentSeq, deleteStudent, deleteStatus, hfind,
      not_le.mpr hq]
  · intro db q s hq hs hid
    have hfind := hfindsome db q s hs hid
    cases hfd : db.find? (fun s => (s.id : ℚ) == q) with
    | none => rw [hfd] at hfind; simp at hfind
    | some ex =>
      have hcount : 0 < db.countP (fun s => (s.id : ℚ) == q) :=
        List.countP_pos_iff.mpr ⟨s, hs, by simp [hid]⟩
      obtain ⟨c, hc⟩ : ∃ c, db.countP (fun s => (s.id : ℚ) == q) = c + 1 :=
        ⟨_, (Nat.succ_pred_eq_of_pos hcount).symm⟩
      have hgetd : (some q).getD 0 = q := rfl
      constructor
      · simp [deleteStudentSeq, deleteStudent, deleteStatus, hfd,
          not_le.mpr hq, hgetd, hc]
      · have hdb2 : (deleteStudentSeq db (some q)).2 =
            db.filter (fun s => !((s.id : ℚ) == q)) := by
          simp [deleteStudentSeq, deleteStudent, hfd, not_le.mpr hq,
            hgetd, hc]
        rw [hdb2]
        have hfind2 : (db.filter (fun s => !((s.id : ℚ) == q))).find?
            (fun s => (s.id : ℚ) == q) = none := by
          refine List.find?_eq_none.mpr (fun x hx => ?_)
          have hxp := List.of_mem_filter hx
          simp at hxp
          simp [hxp]
        simp [deleteStudentSeq, deleteStudent, deleteStatus, hfind2,
          not_le.mpr hq]
  · intro db q s hq hs hid
    have hfind := hfindsome db q s hs hid
    cases hfd : db.find? (fun s => (s.id : ℚ) == q) with
    | none => rw [hfd] at hfind; simp at hfind
    | some ex =>
      constructor <;>
        simp [deleteStudent, deleteStatus, hfd, not_le.mpr hq]
  · intro db q s hq hs hid
    have hfind := hfindsome db q s hs hid
    cases hfd : db.find? (fun s => (s.id : ℚ) == q) with
    | none => rw [hfd] at hfind; simp at hfind
    | some ex =>
      constructor <;>
        simp [deleteStudent, deleteStatus, hfd, not_le.mpr hq]

/-- C6 witness: concrete instantiations over the seed table — `NaN` id,
id 0, unmatched id 99, double deletion of id 3, an injected lock failure
and an injected zero-rows outcome on id 4. -/
theorem claim_c6_witness :
    deleteStatus (deleteStudent sampleStudents none (.ok 1)).1 = 400 ∧
    deleteStatus (deleteStudent sampleStudents (some 0) (.ok 1)).1 = 400 ∧
    deleteStatus (deleteStudentSeq sampleStudents (some 99)).1 = 404 ∧
    (deleteStatus (deleteStudentSeq sampleStudents (some 3)).1 = 200 ∧
      deleteStatus (deleteStudentSeq
        (deleteStudentSeq sampleStudents (some 3)).2 (some 3)).1 = 404) ∧
    (deleteStatus
        (deleteStudent sampleStudents (some 4) (.error .locked)).1 = 503 ∧
      (deleteStudent sampleStudents (some 4) (.error .locked)).2 =
        sampleStudents) ∧
    (deleteStatus (deleteStudent sampleStudents (some 4) (.ok 0)).1 = 500 ∧
      (deleteStudent sampleStudents (some 4) (.ok 0)).2 =
        sampleStudents) :=
  ⟨claim_c6_theorem.1 sampleStudents (.ok 1),
   claim_c6_theorem.2.1 sampleStudents (.ok 1) 0 (by decide),
   claim_c6_theorem.2.2.1 sampleStudents 99 (by decide) (by decide),
   claim_c6_theorem.2.2.2.1 sampleStudents 3
     ⟨3, "Bob Johnson", "bob.johnson@example.com", "English", 78, 3⟩
     (by decide) (by decide) (by decide),
   claim_c6_theorem.2.2.2.2.1 sampleStudents 4
     ⟨4, "Alice Brown", "alice.brown@example.com", "History", 88, 4⟩
     (by decide) (by decide) (by decide),
   claim_c6_theorem.2.2.2.2.2 sampleStudents 4
     ⟨4, "Alice Brown", "alice.brown@example.com", "History", 88, 4⟩
     (by decide) (by decide) (by decide)⟩

/-- Membership is invariant under the ORDER BY sort. -/
theorem mem_sortRows {x : Student} {k d : String} {l : List Student} :
    x ∈ sortRows k d l ↔ x ∈ l := by
  unfold sortRows
  by_cases h : (d == "ASC") = true <;>
    simp [h, List.mem_insertionSort]

/-- C9: when the attached identity has role `Student`, the list predicate
includes `id = identity.id`, so every row the handler returns carries the
requester's id. -/
theorem claim_c9_theorem :
    ∀ db u q errs rows pg off r,
      u.role = Roles.STUDENT →
      getStudents db (some u) q errs = .ok rows pg off →
      r ∈ rows → r.id = u.id := by
  intro db u q errs rows pg off r hrole hok hr
  cases errs with
  | false => simp [getStudents] at hok
  | true =>
    simp only [getStudents, Bool.not_true, Bool.false_eq_true, if_false,
      ListResult.ok.injEq] at hok
    obtain ⟨hrows, hpg, hoff⟩ := hok
    rw [← hrows] at hr
    obtain ⟨s, hsmem, hsr⟩ := List.mem_map.mp hr
    have hsort : s ∈ sortRows (safeSortField (q.sortBy.getD "created_at"))
        (safeSortDirection (q.sortOrder.getD "desc"))
        (db.filter (listPred (some u) q.subject q.search)) :=
      List.mem_of_mem_drop (List.mem_of_mem_take hsmem)
    have hfil : s ∈ db.filter (listPred (some u) q.subject q.search) :=
      mem_sortRows.mp hsort
    have hpred : listPred (some u) q.subject q.search s = true :=
      List.of_mem_filter hfil
    simp only [listPred, hrole, if_pos, Bool.and_eq_true] at hpred
    have hid : s.id = u.id := by
      have h1 := hpred.1.1
      rwa [beq_iff_eq] at h1
    rw [← hsr]
    simpa [toListRow] using hid

/-- C9 witness: over the seed table, a Student identity with id 3 receives
exactly its own row. -/
theorem claim_c9_witness :
    (⟨3, "Bob Johnson", "English", 78, 3, none⟩ : ListRow).id = 3 :=
  claim_c9_theorem sampleStudents ⟨"stud", .STUDENT, 3⟩ {} true
    [⟨3, "Bob Johnson", "English", 78, 3, none⟩]
    { currentPage := 1, totalPages := 1, totalItems := 1,
      itemsPerPage := 20, hasNext := false, hasPrev := false } 0
    ⟨3, "Bob Johnson", "English", 78, 3, none⟩
    rfl (by decide) (by decide)

/-- `jsCeilDiv n m` is the rational ceiling of `n / m` (for `m > 0`). -/
theorem jsCeilDiv_eq_ceil (n m : ℕ) (hm : 0 < m) :
    ((jsCeilDiv n m : ℕ) : ℤ) = ⌈(n : ℚ) / (m : ℚ)⌉ := by
  have hmq : (0 : ℚ) < (m : ℚ) := by exact_mod_cast hm
  have hdm := Nat.div_add_mod (n + m - 1) m
  have hmod : (n + m - 1) % m < m := Nat.mod_lt _ hm
  set q := (n + m - 1) / m with hq
  have h1 : n ≤ m * q := by omega
  have h2 : m * q < n + m := by omega
  have hqd : jsCeilDiv n m = q := rfl
  rw [hqd]
  symm
  rw [Int.ceil_eq_iff]
  constructor
  · rw [lt_div_iff hmq]
    have h2q : (m : ℚ) * (q : ℚ) < (n : ℚ) + (m : ℚ) := by
      exact_mod_cast h2
    push_cast
    nlinarith [h2q]
  · rw [div_le_iff hmq]
    have h1q : (n : ℚ) ≤ (m : ℚ) * (q : ℚ) := by exact_mod_cast h1
    push_cast
    nlinarith [h1q]

/-- C7: every successful list response satisfies
`totalPages = ceil(totalItems / itemsPerPage)`,
`hasNext ↔ currentPage < totalPages`, `hasPrev ↔ currentPage > 1`, and the
OFFSET bound into the page query is `(currentPage - 1) * itemsPerPage`. -/
theorem claim_c7_theorem :
    ∀ db user q rows pg off,
      getStudentsEndpoint db user q = .ok rows pg off →
      (pg.totalPages : ℤ) =
        ⌈(pg.totalItems : ℚ) / (pg.itemsPerPage : ℚ)⌉ ∧
      (pg.hasNext = true ↔ pg.currentPage < pg.totalPages) ∧
      (pg.hasPrev = true ↔ 1 < pg.currentPage) ∧
      off = (pg.currentPage - 1) * pg.itemsPerPage := by
  intro db user q rows pg off hok
  cases hval : validateGetStudents q with
  | false =>
    rw [getStudentsEndpoint, hval] at hok
    simp [getStudents] at hok
  | true =>
    rw [getStudentsEndpoint, hval] at hok
    have hlim : 0 < q.limit.getD 20 := by
      simp only [validateGetStudents, Bool.and_eq_true] at hval
      obtain ⟨⟨⟨⟨⟨hsub, hpage⟩, hlimit⟩, hsort⟩, hord⟩, hsearch⟩ := hval
      cases hql : q.limit with
      | none => simp
      | some l =>
        rw [hql] at hlimit
        simp only [Bool.and_eq_true, decide_eq_true_eq] at hlimit
        simpa using hlimit.1
    simp only [getStudents, Bool.not_true, Bool.false_eq_true, if_false,
      ListResult.ok.injEq] at hok
    obtain ⟨hrows, hpg, hoff⟩ := hok
    subst hpg
    subst hoff
    refine ⟨?_, ?_, ?_, ?_⟩
    · exact jsCeilDiv_eq_ceil _ _ hlim
    · simp
    · simp
    · rfl

/-- C7 witness: a one-row table listed with default parameters has one
page, no next or previous page, and offset 0. -/
theorem claim_c7_witness :
    ((1 : Nat) : ℤ) = ⌈((1 : Nat) : ℚ) / ((20 : Nat) : ℚ)⌉ ∧
    ((false = true) ↔ (1 : Nat) < 1) ∧
    ((false = true) ↔ 1 < (1 : Nat)) ∧
    (0 : Nat) = (1 - 1) * 20 := by
  have h := claim_c7_theorem
    [⟨1, "John Doe", "john.doe@example.com", "Math", 85, 1⟩]
    (some ⟨"teacher", .TEACHER, 1⟩) {}
    [⟨1, "John Doe", "Math", 85, 1, none⟩]
    { currentPage := 1, totalPages := 1, totalItems := 1,
      itemsPerPage := 20, hasNext := false, hasPrev := false } 0
    (by decide)
  exact h

/-- The grades of the stored students of one subject (the reference
arithmetic-mean side of the analytics claim). -/
def subjectGrades (db : List Student) (subj : String) : List ℚ :=
  (db.filter (fun s => s.subject == subj)).map (fun s => s.grade)

/-- Looking a subject up in the aggregation state after one more row:
the row's own group gains its grade, every other group is untouched. -/
theorem lookup_upsertGroup (l : List (String × ℚ × Nat))
    (subj subj2 : String) (g : ℚ) :
    List.lookup subj (upsertGroup l subj2 g) =
      if subj = subj2 then
        match List.lookup subj l with
        | none => some (g, 1)
        | some p => some (p.1 + g, p.2 + 1)
      else List.lookup subj l := by
  induction l with
  | nil =>
    by_cases h : subj = subj2
    · simp [upsertGroup, List.lookup, h]
    · have hbeq : (subj == subj2) = false := by simp [h]
      simp [upsertGroup, List.lookup, h, hbeq]
  | cons hd tl ih =>
    obtain ⟨s, sum, cnt⟩ := hd
    by_cases hss : s = subj2
    · subst hss
      have hup : upsertGroup ((s, sum, cnt) :: tl) s g =
          (s, sum + g, cnt + 1) :: tl := by
        simp [upsertGroup]
      rw [hup]
      by_cases h : subj = s
      · simp [List.lookup, h]
      · have hbeq : (subj == s) = false := by simp [h]
        simp [List.lookup, h, hbeq]
    · have hup : upsertGroup ((s, sum, cnt) :: tl) subj2 g =
          (s, sum, cnt) :: upsertGroup tl subj2 g := by
        simp [upsertGroup, hss]
      rw [hup]
      by_cases h : subj = s
      · subst h
        have hne : ¬ subj = subj2 := hss
        simp [List.lookup, hne]
      · have hbeq : (subj == s) = false := by simp [h]
        simp [List.lookup, hbeq, ih]

/-- The aggregation state after scanning all rows holds, for each subject
that occurs, exactly the sum and count of that subject's grades. -/
theorem lookup_groupAccum (rows : List Student) (subj : String) :
    List.lookup subj (groupAccum rows) =
      if (subjectGrades rows subj).length = 0 then none
      else some ((subjectGrades rows subj).sum,
        (subjectGrades rows subj).length) := by
  induction rows with
  | nil => simp [groupAccum, subjectGrades]
  | cons s rest ih =>
    rw [show groupAccum (s :: rest) =
      upsertGroup (groupAccum rest) s.subject s.grade from rfl]
    rw [lookup_upsertGroup]
    by_cases h : subj = s.subject
    · rw [if_pos h]
      have hsg : subjectGrades (s :: rest) subj =
          s.grade :: subjectGrades rest subj := by
        simp [subjectGrades, List.filter_cons, h.symm]
      rw [hsg, ih]
      by_cases hz : (subjectGrades rest subj).length = 0
      · have hnil : subjectGrades rest subj = [] :=
          List.length_eq_zero.mp hz
        simp [hz, hnil]
      · simp only [hz, if_false, List.sum_cons, List.length_cons]
        rw [if_neg (by omega)]
        have : s.grade + (subjectGrades rest subj).sum =
            (subjectGrades rest subj).sum + s.grade := add_comm _ _
        simp [this]
    · rw [if_neg h]
      have hsg : subjectGrades (s :: rest) subj =
          subjectGrades rest subj := by
        have hbeq : (s.subject == subj) = false := by
          simp
          exact fun he => h he.symm
        simp [subjectGrades, List.filter_cons, hbeq]
      rw [hsg, ih]

/-- Same commutation for a value-map on `String × ℚ` association lists. -/
theorem lookup_map_round (l : List (String × ℚ)) (subj : String)
    (f : ℚ → ℚ) :
    List.lookup subj (l.map (fun p => (p.1, f p.2))) =
      (List.lookup subj l).map f := by
  induction l with
  | nil => rfl
  | cons hd tl ih =>
    obtain ⟨k, v⟩ := hd
    by_cases h : subj = k
    · simp [List.lookup, h]
    · have hbeq : (subj == k) = false := by simp [h]
      simp [List.lookup, hbeq, ih]

/-- Looking a subject up in the per-subject averages is looking it up in
the aggregation state and dividing sum by count. -/
theorem lookup_avgBySubject (rows : List Student) (subj : String) :
    List.lookup subj (avgBySubject rows) =
      (List.lookup subj (groupAccum rows)).map
        (fun v : ℚ × Nat => v.1 / (v.2 : ℚ)) := by
  unfold avgBySubject
  generalize groupAccum rows = l
  induction l with
  | nil => rfl
  | cons hd tl ih =>
    obtain ⟨k, v⟩ := hd
    by_cases h : subj = k
    · simp [List.lookup, h]
    · have hbeq : (subj == k) = false := by simp [h]
      simp [List.lookup, hbeq, ih]

attribute [local semireducible] Rat.add Rat.mul Rat.sub Rat.inv in
/-- C8: every per-subject average the analytics endpoint reports equals
the arithmetic mean of that subject's stored grades rounded to two
decimals (with or without a subject filter); in particular, over the six
seed rows with no filter, `totalStudents` is 6 and the Math average is
exactly 90. -/
theorem claim_c8_theorem :
    (∀ db limit filt subj q errs d,
      getAnalytics db limit filt errs = .ok d →
      List.lookup subj d.averageGradeBySubject = some q →
      q = jsRound2 ((subjectGrades db subj).sum /
        ((subjectGrades db subj).length : ℚ))) ∧
    (∀ d, getAnalytics sampleStudents (some 1) none true = .ok d →
      d.totalStudents = 6 ∧
      List.lookup "Math" d.averageGradeBySubject = some 90) := by
  constructor
  · intro db limit filt subj q errs d hok hlook
    cases errs with
    | false => simp [getAnalytics] at hok
    | true =>
      simp only [getAnalytics, Bool.not_true, Bool.false_eq_true, if_false,
        AnalyticsResult.ok.injEq] at hok
      subst hok
      simp only at hlook
      rw [lookup_map_round] at hlook
      rw [lookup_avgBySubject] at hlook
      rw [lookup_groupAccum] at hlook
      cases filt with
      | none =>
        by_cases hz : (subjectGrades db subj).length = 0
        · rw [if_pos hz] at hlook
          simp at hlook
        · rw [if_neg hz] at hlook
          simp only [Option.map_some] at hlook
          injection hlook with hq
          exact hq.symm
      | some fs =>
        by_cases hz : (subjectGrades
            (db.filter (fun s => s.subject == fs)) subj).length = 0
        · rw [if_pos hz] at hlook
          simp at hlook
        · rw [if_neg hz] at hlook
          have hne : subjectGrades (db.filter (fun s => s.subject == fs))
              subj ≠ [] := by
            intro hnil
            rw [hnil] at hz
            simp at hz
          have hmemex : ∃ z, z ∈ (db.filter (fun s => s.subject == fs)).filter
              (fun s => s.subject == subj) := by
            cases hfe : (db.filter (fun s => s.subject == fs)).filter
                (fun s => s.subject == subj) with
            | nil =>
              exfalso
              apply hne
              simp only [subjectGrades, hfe, List.map_nil]
            | cons z zs => exact ⟨z, List.mem_cons_self z zs⟩
          obtain ⟨z, hzmem⟩ := hmemex
          have hzsub : z.subject = subj := by
            have hp := List.of_mem_filter hzmem
            simpa using hp
          have hzfs : z.subject = fs := by
            have hzdb := List.mem_of_mem_filter hzmem
            have hp := List.of_mem_filter hzdb
            simpa using hp
          have hfseq : fs = subj := by rw [← hzfs, hzsub]
          subst hfseq
          have hgr : subjectGrades (db.filter (fun s => s.subject == fs))
              fs = subjectGrades db fs := by
            simp only [subjectGrades, List.filter_filter, Bool.and_self]
          rw [hgr] at hlook
          have hq2 : some (jsRound2 ((subjectGrades db fs).sum /
              ((subjectGrades db fs).length : ℚ))) = some q := hlook
          injection hq2 with hq3
          exact hq3.symm
  · intro d hok
    injection hok with hd
    subst hd
    exact ⟨by decide, by decide⟩

attribute [local semireducible] Rat.add Rat.mul Rat.sub Rat.inv in
/-- C8 witness: over the six seed rows (recency limit 1, no filter), the
endpoint reports Math ↦ 90 — the rounded mean of 85 and 95 — and
totalStudents 6. -/
theorem claim_c8_witness :
    ((90 : ℚ) = jsRound2 ((subjectGrades sampleStudents "Math").sum /
      ((subjectGrades sampleStudents "Math").length : ℚ))) ∧
    ({ totalStudents := 6,
       averageGradeBySubject := [("Science", mkRat 181 2), ("Math", 90),
         ("History", 88), ("English", 78)],
       recentAdditions := [⟨6, "Diana Davis", "diana.davis@example.com",
         "Science", 89, 6⟩] } : AnalyticsData).totalStudents = 6 ∧
    List.lookup "Math"
      ({ totalStudents := 6,
         averageGradeBySubject := [("Science", mkRat 181 2), ("Math", 90),
           ("History", 88), ("English", 78)],
         recentAdditions := [⟨6, "Diana Davis", "diana.davis@example.com",
           "Science", 89, 6⟩] } : AnalyticsData).averageGradeBySubject =
      some 90 :=
  ⟨claim_c8_theorem.1 sampleStudents (some 1) none "Math" 90 true
     { totalStudents := 6,
       averageGradeBySubject := [("Science", mkRat 181 2), ("Math", 90),
         ("History", 88), ("English", 78)],
       recentAdditions := [⟨6, "Diana Davis", "diana.davis@example.com",
         "Science", 89, 6⟩] } (by decide) (by decide),
   (claim_c8_theorem.2
     { totalStudents := 6,
       averageGradeBySubject := [("Science", mkRat 181 2), ("Math", 90),
         ("History", 88), ("English", 78)],
       recentAdditions := [⟨6, "Diana Davis", "diana.davis@example.com",
         "Science", 89, 6⟩] } (by decide)).1,
   (claim_c8_theorem.2
     { totalStudents := 6,
       averageGradeBySubject := [("Science", mkRat 181 2), ("Math", 90),
         ("History", 88), ("English", 78)],
       recentAdditions := [⟨6, "Diana Davis", "diana.davis@example.com",
         "Science", 89, 6⟩] } (by decide)).2⟩

/-- C1 counterexample: starting from an empty table, creating
`A@B.com` stores `a@b.com`, but the list page built by the endpoint
(whose SELECT omits the email column) contains zero records whose email
key equals `a@b.com` — not exactly one as the claim requires. -/
theorem claim_c1_counterexample :
    (createNewStudent [] ⟨"John Doe", "A@B.com", "Math", 90⟩ 7 true
      none).2 = [⟨1, "John Doe", "a@b.com", "Math", 90, 7⟩] ∧
    getStudentsEndpoint [⟨1, "John Doe", "a@b.com", "Math", 90, 7⟩]
      (some ⟨"teacher", .TEACHER, 1⟩) {} =
      .ok [⟨1, "John Doe", "Math", 90, 7, none⟩]
        { currentPage := 1, totalPages := 1, totalItems := 1,
          itemsPerPage := 20, hasNext := false, hasPrev := false } 0 ∧
    List.countP (fun r => r.email == some (lowerStr "A@B.com"))
      [(⟨1, "John Doe", "Math", 90, 7, none⟩ : ListRow)] = 0 ∧
    (0 : Nat) ≠ 1 := by
  refine ⟨by decide, by decide, by decide, by decide⟩

/-- A sort permutes the rows. -/
theorem perm_sortRows (k d : String) (l : List Student) :
    (sortRows k d l).Perm l := by
  unfold sortRows
  by_cases h : (d == "ASC") = true <;>
    simp [h, List.perm_insertionSort]

/-- Every stored id is below the id `AUTOINCREMENT` assigns next. -/
theorem mem_id_lt_nextId {s : Student} {db : List Student} (hs : s ∈ db) :
    s.id < nextId db := by
  have hle : s.id ≤ db.foldr (fun s acc => max s.id acc) 0 := by
    induction db with
    | nil => cases hs
    | cons hd tl ih =>
      rcases List.mem_cons.mp hs with h | h
      · subst h
        exact le_max_left _ _
      · exact le_trans (ih h) (le_max_right _ _)
  exact Nat.lt_succ_of_le hle

/-- `Char.ofNat` of a valid scalar value decodes back to it. -/
theorem toNat_ofNat_valid (n : Nat) (h : n.isValidChar) :
    (Char.ofNat n).toNat = n := by
  rw [Char.ofNat, dif_pos h]
  rfl

/-- ASCII lowercasing is idempotent on characters. -/
theorem lowerChar_idem (c : Char) : lowerChar (lowerChar c) = lowerChar c := by
  by_cases h : 65 ≤ c.toNat ∧ c.toNat ≤ 90
  · have hv : Nat.isValidChar (c.toNat + 32) := Or.inl (by omega)
    have h1 : lowerChar c = Char.ofNat (c.toNat + 32) := if_pos h
    have h2 : (lowerChar c).toNat = c.toNat + 32 := by
      rw [h1]
      exact toNat_ofNat_valid _ hv
    have h3 : ¬(65 ≤ (lowerChar c).toNat ∧ (lowerChar c).toNat ≤ 90) := by
      rw [h2]
      omega
    exact if_neg h3
  · have h1 : lowerChar c = c := if_neg h
    rw [h1]
    exact h1

/-- ASCII lowercasing is idempotent on strings: a stored lowercased email
can never itself collide with a fresh lowercase form unless the
case-insensitive comparison already does. -/
theorem lowerStr_idem (s : String) : lowerStr (lowerStr s) = lowerStr s := by
  unfold lowerStr
  rw [show ((s.toList.map lowerChar).asString).toList =
      s.toList.map lowerChar from rfl]
  rw [List.map_map]
  congr 1
  exact List.map_congr_left (fun a _ => lowerChar_idem a)

/-- Each ORDER BY key comparison is total. -/
theorem sortKeyLe_total (k : String) (a b : Student) :
    sortKeyLe k a b = true ∨ sortKeyLe k b a = true := by
  unfold sortKeyLe
  by_cases h1 : (k == "name") = true
  · rw [if_pos h1, if_pos h1]
    simp only [decide_eq_true_eq]
    exact le_total _ _
  · rw [if_neg h1, if_neg h1]
    by_cases h2 : (k == "subject") = true
    · rw [if_pos h2, if_pos h2]
      simp only [decide_eq_true_eq]
      exact le_total _ _
    · rw [if_neg h2, if_neg h2]
      by_cases h3 : (k == "grade") = true
      · rw [if_pos h3, if_pos h3]
        simp only [decide_eq_true_eq]
        exact le_total _ _
      · rw [if_neg h3, if_neg h3]
        simp only [decide_eq_true_eq]
        exact le_total _ _

/-- Each ORDER BY key comparison is transitive. -/
theorem sortKeyLe_trans (k : String) {a b c : Student}
    (hab : sortKeyLe k a b = true) (hbc : sortKeyLe k b c = true) :
    sortKeyLe k a c = true := by
  unfold sortKeyLe at hab hbc ⊢
  by_cases h1 : (k == "name") = true
  · rw [if_pos h1] at hab hbc ⊢
    simp only [decide_eq_true_eq] at hab hbc ⊢
    exact le_trans hab hbc
  · rw [if_neg h1] at hab hbc ⊢
    by_cases h2 : (k == "subject") = true
    · rw [if_pos h2] at hab hbc ⊢
      simp only [decide_eq_true_eq] at hab hbc ⊢
      exact le_trans hab hbc
    · rw [if_neg h2] at hab hbc ⊢
      by_cases h3 : (k == "grade") = true
      · rw [if_pos h3] at hab hbc ⊢
        simp only [decide_eq_true_eq] at hab hbc ⊢
        exact le_trans hab hbc
      · rw [if_neg h3] at hab hbc ⊢
        simp only [decide_eq_true_eq] at hab hbc ⊢
        exact le_trans hab hbc

/-- `ORDER BY k DESC` is the insertion sort under the flipped key
comparison. -/
theorem sortRows_desc (k : String) (l : List Student) :
    sortRows k "DESC" l =
      l.insertionSort (fun a b => sortKeyLe k b a = true) := by
  unfold sortRows
  rw [if_neg]
  decide

/-- C1 amended: for every valid create payload whose email
(case-insensitively) does not yet occur in storage, and whose
storage-assigned creation timestamp is later than every stored row's (as
it is in any run, the clock having advanced past earlier inserts),
create followed by list yields a page containing exactly one record whose
id equals the created record's id — the new row carries the newest
timestamp, so it sorts first under the default created_at-descending
order and lands on the first page whatever the table size — and storage
afterwards holds exactly one record whose email equals the created email
normalized to lowercase; the listed rows themselves carry no email field,
because the page SELECT omits the email column. -/
theorem claim_c1_theorem :
    ∀ db p now, (∀ s ∈ db, lowerStr s.email ≠ lowerStr p.email) →
      (∀ s ∈ db, s.created_at < now) →
      ∀ s2 db2, createNewStudent db p now true none = (.created s2, db2) →
      db2.countP (fun s => s.email == lowerStr p.email) = 1 ∧
      ∀ rows pg off,
        getStudentsEndpoint db2 (some ⟨"teacher", .TEACHER, 1⟩) {} =
          .ok rows pg off →
        rows.countP (fun r => r.id == s2.id) = 1 := by
  intro db p now hfresh htime s2 db2 hcr
  set snew : Student :=
    ⟨nextId db, p.name, lowerStr p.email, p.subject, p.grade, now⟩
    with hsnewd
  have hany : db.any (fun s => lowerStr s.email == lowerStr p.email) =
      false := by
    rw [Bool.eq_false_iff]
    intro hcontra
    obtain ⟨s, hs, he⟩ := List.any_eq_true.mp hcontra
    exact hfresh s hs (by simpa using he)
  have hcr1 : (createNewStudent db p now true none).1 = .created s2 := by
    rw [hcr]
  have hcrdb : (createNewStudent db p now true none).2 = db2 := by
    rw [hcr]
  have hres : CreateResult.created snew = CreateResult.created s2 := by
    rw [← hcr1]
    simp [createNewStudent, hany, hsnewd]
  have hdbe : db ++ [snew] = db2 := by
    rw [← hcrdb]
    simp [createNewStudent, hany, hsnewd]
  injection hres with hsnew
  have hlit : ∀ s ∈ db, s.email ≠ lowerStr p.email := by
    intro s hs heq
    apply hfresh s hs
    rw [heq, lowerStr_idem]
  have hnotindb : snew ∉ db := by
    intro hmem
    have hlt := mem_id_lt_nextId hmem
    exact absurd hlt (lt_irrefl _)
  constructor
  · rw [← hdbe, List.countP_append]
    have h0 : db.countP (fun s => s.email == lowerStr p.email) = 0 := by
      rw [List.countP_eq_zero]
      intro s hs
      simp [hlit s hs]
    rw [h0]
    simp [hsnewd]
  · intro rows pg off hok
    rw [← hdbe] at hok
    rw [← hsnew]
    have hepdef : getStudentsEndpoint (db ++ [snew])
        (some ⟨"teacher", .TEACHER, 1⟩) {} =
        getStudents (db ++ [snew]) (some ⟨"teacher", .TEACHER, 1⟩) {}
          true := rfl
    rw [hepdef] at hok
    simp only [getStudents, Bool.not_true, Bool.false_eq_true, if_false,
      ListResult.ok.injEq] at hok
    obtain ⟨hrows, hpg, hoff⟩ := hok
    rw [← hrows]
    have hfil : (db ++ [snew]).filter
        (listPred (some ⟨"teacher", .TEACHER, 1⟩) none none) =
        db ++ [snew] :=
      List.filter_eq_self.mpr (fun a _ => rfl)
    show ((((sortRows (safeSortField "created_at")
        (safeSortDirection "desc")
        ((db ++ [snew]).filter
          (listPred (some ⟨"teacher", .TEACHER, 1⟩) none none))).drop
          0).take 20).map toListRow).countP
        (fun r => r.id == snew.id) = 1
    rw [hfil, List.drop_zero]
    have hsf : safeSortField "created_at" = "created_at" := by decide
    have hsd : safeSortDirection "desc" = "DESC" := by decide
    rw [hsf, hsd, sortRows_desc]
    haveI htot : IsTotal Student
        (fun a b => sortKeyLe "created_at" b a = true) :=
      ⟨fun a b => sortKeyLe_total "created_at" b a⟩
    haveI htrans : IsTrans Student
        (fun a b => sortKeyLe "created_at" b a = true) :=
      ⟨fun a b c hab hbc => sortKeyLe_trans "created_at" hbc hab⟩
    have hsorted := List.sorted_insertionSort
      (fun a b => sortKeyLe "created_at" b a = true) (db ++ [snew])
    have hperm2 := List.perm_insertionSort
      (fun a b => sortKeyLe "created_at" b a = true) (db ++ [snew])
    have hmemL : snew ∈ (db ++ [snew]).insertionSort
        (fun a b => sortKeyLe "created_at" b a = true) :=
      hperm2.mem_iff.mpr (by simp)
    cases hLc : (db ++ [snew]).insertionSort
        (fun a b => sortKeyLe "created_at" b a = true) with
    | nil =>
      rw [hLc] at hmemL
      simp at hmemL
    | cons x xs =>
      rw [hLc] at hsorted hperm2 hmemL
      have hxeq : x = snew := by
        rcases List.mem_cons.mp hmemL with h | h
        · exact h.symm
        · have hx_r : sortKeyLe "created_at" snew x = true :=
            (List.sorted_cons.mp hsorted).1 snew h
          have hxle : now ≤ x.created_at := of_decide_eq_true hx_r
          have hxmem : x ∈ db ++ [snew] :=
            hperm2.subset (List.mem_cons_self x xs)
          rcases List.mem_append.mp hxmem with hxdb | hxsing
          · exfalso
            have hxt := htime x hxdb
            omega
          · exact List.mem_singleton.mp hxsing
      subst hxeq
      have hcnt : List.count snew xs = 0 := by
        have h1 : List.count snew (db ++ [snew]) = 1 := by
          rw [List.count_append, List.count_eq_zero_of_not_mem hnotindb]
          simp
        have h2 := hperm2.count_eq snew
        rw [List.count_cons_self, h1] at h2
        omega
      have hxs_db : ∀ y ∈ xs, y ∈ db := by
        intro y hy
        have hymem : y ∈ db ++ [snew] :=
          hperm2.subset (List.mem_cons_of_mem _ hy)
        rcases List.mem_append.mp hymem with h | h
        · exact h
        · exfalso
          have hys : y = snew := List.mem_singleton.mp h
          rw [hys] at hy
          exact absurd hy (List.count_eq_zero.mp hcnt)
      rw [show (20 : ℕ) = 19 + 1 from rfl, List.take_succ_cons,
        List.countP_map]
      rw [List.countP_cons_of_pos _ _ (by simp [toListRow])]
      have h0 : List.countP
          ((fun r : ListRow => r.id == snew.id) ∘ toListRow)
          (xs.take 19) = 0 := by
        rw [List.countP_eq_zero]
        intro y hy
        have hydb : y ∈ db := hxs_db y (List.mem_of_mem_take hy)
        have hylt := mem_id_lt_nextId hydb
        simp only [Function.comp, toListRow, beq_iff_eq, hsnewd]
        omega
      rw [h0]

/-- C1 witness: against a one-row table, creating `NEW@Example.com` at a
later timestamp stores `new@example.com`; storage then holds exactly one
record with that email and the default list page holds exactly one row
with the new id 2. -/
theorem claim_c1_witness :
    ([(⟨1, "John Doe", "john.doe@example.com", "Math", 85, 1⟩ : Student),
      ⟨2, "New Guy", "new@example.com", "Math", 70, 9⟩].countP
      (fun s => s.email == lowerStr "NEW@Example.com") = 1) ∧
    ([(⟨2, "New Guy", "Math", 70, 9, none⟩ : ListRow),
      ⟨1, "John Doe", "Math", 85, 1, none⟩].countP
      (fun r => r.id ==
        (⟨2, "New Guy", "new@example.com", "Math", 70, 9⟩ : Student).id) =
      1) :=
  have h := claim_c1_theorem
    [⟨1, "John Doe", "john.doe@example.com", "Math", 85, 1⟩]
    ⟨"New Guy", "NEW@Example.com", "Math", 70⟩ 9
    (by decide) (by decide)
    ⟨2, "New Guy", "new@example.com", "Math", 70, 9⟩
    [⟨1, "John Doe", "john.doe@example.com", "Math", 85, 1⟩,
     ⟨2, "New Guy", "new@example.com", "Math", 70, 9⟩]
    (by decide)
  ⟨h.1,
   h.2 [⟨2, "New Guy", "Math", 70, 9, none⟩,
        ⟨1, "John Doe", "Math", 85, 1, none⟩]
     { currentPage := 1, totalPages := 1, totalItems := 2,
       itemsPerPage := 20, hasNext := false, hasPrev := false } 0
     (by decide)⟩
